import Mathlib

/-! Verification of the hybrid retrieval engine of the Title 21 regulations
repository: the rule-based status classifier (src/app.py,
RegulationScraper.analyze_regulation_status), the FAISS-backed vector index
and hybrid ranker (src/rag_service.py), the refresh change detection
(src/app.py, refresh_regulations.update_regulations) and the keyword search
(src/app.py, RegulationScraper.search_regulations), shallowly embedded as
executable Lean functions. -/

namespace Regulations

/-! String helpers mirroring the Python primitives used by the source. -/

/-- Python substring containment (`needle in hay`) on character lists. -/
def hasSubstr (needle : List Char) : List Char → Bool
  | [] => needle.isEmpty
  | c :: rest => needle.isPrefixOf (c :: rest) || hasSubstr needle rest

/-- Python operator `in` on strings: true when `needle` occurs in `hay`. -/
def strContains (hay needle : String) : Bool :=
  hasSubstr needle.toList hay.toList

/-- Python str.lower (the source only lowercases ASCII regulation text). -/
def strLower (s : String) : String := String.mk (s.toList.map Char.toLower)

/-- Python slicing s[:n] on strings (by code point). -/
def pyTake (s : String) (n : Nat) : String := String.mk (s.toList.take n)

/-- Python str.startswith. -/
def pyStartsWith (s pre : String) : Bool := pre.toList.isPrefixOf s.toList

/-- Python str.strip: remove leading and trailing whitespace. -/
def pyStrip (s : String) : String :=
  String.mk ((((s.toList.dropWhile Char.isWhitespace).reverse).dropWhile
    Char.isWhitespace).reverse)

/-- Python truthiness of an optional string value (None and "" are falsy). -/
def truthy : Option String → Bool
  | none => false
  | some s => !s.isEmpty

/-- Python f-string rendering of an optional string (None prints as "None"). -/
def pyShow : Option String → String
  | none => "None"
  | some s => s

/-! The deterministic status classifier, src/app.py lines 102-277. -/

/-- Keyword list `prohibited_keywords` of src/app.py lines 183-191. -/
def prohibited_keywords : List String :=
  ["prohibited", "forbidden", "not permitted", "not allowed",
   "banned", "unlawful", "illegal",
   "shall not", "must not", "may not", "cannot", "prohibits",
   "ban", "outlaw", "no person may", "no person shall",
   "it is unlawful", "it is illegal", "prohibited from",
   "forbidden to", "prohibition",
   "may not be", "shall not be", "must not be", "cannot be"]

/-- Phrase list `prohibited_phrases` of src/app.py lines 194-198. -/
def prohibited_phrases : List String :=
  ["shall not", "must not", "may not", "cannot", "no person may",
   "no person shall", "it is unlawful", "it is illegal",
   "prohibited from", "forbidden to"]

/-- Keyword list `allowed_keywords` of src/app.py lines 201-205. -/
def allowed_keywords : List String :=
  ["permitted", "allowed", "authorized", "approved", "legal",
   "may", "can", "shall", "must", "requires", "mandates",
   "regulation", "provision", "requirement", "standard", "guideline"]

/-- Keyword list `requirement_indicators` of src/app.py lines 252-255. -/
def requirement_indicators : List String :=
  ["requirement", "requirements", "standard", "standards", "regulation",
   "regulations", "rule", "rules", "procedure", "procedures", "guideline",
   "guidelines", "registration", "labeling", "approval", "manufacturing",
   "prescription", "record", "records", "report", "reports", "quota",
   "quotas"]

/-- Bare chapter and subchapter labels of src/app.py line 243. -/
def chapter_labels : List String :=
  ["chapter i", "chapter ii", "chapter iii", "subchapter a", "subchapter b",
   "subchapter c", "subchapter d", "subchapter e", "subchapter f",
   "subchapter g", "subchapter h", "subchapter i", "subchapter j",
   "subchapter k", "subchapter l"]

/-- Deterministic keyword fallback of RegulationScraper.analyze_regulation_status,
src/app.py lines 178-277, given the raw description and the lowered combined
full text of description and content (`full_text_lower`). -/
def statusFallback (description full_text_lower : String) : String × String :=
  let description_lower := strLower description
  let prohibited_in_desc :=
    prohibited_keywords.countP (fun k => strContains description_lower k)
  let prohibited_phrase_in_desc :=
    prohibited_phrases.any (fun p => strContains description_lower p)
  if prohibited_phrase_in_desc then
    ("Prohibited",
     "Regulation explicitly prohibits activities (prohibition phrase found in description)")
  else if 2 ≤ prohibited_in_desc then
    ("Prohibited",
     "Contains " ++ toString prohibited_in_desc ++ " prohibition indicator(s) in description")
  else if strContains full_text_lower "reserved" then
    ("Reserved", "Regulation section is reserved for future use")
  else
    let allowed_in_desc :=
      allowed_keywords.countP (fun k => strContains description_lower k)
    let allowed_in_content :=
      allowed_keywords.countP (fun k => strContains full_text_lower k)
    let allowed_count := allowed_in_desc + allowed_in_content
    if (["chapter", "subchapter"].any (fun k => strContains description_lower k)) &&
        chapter_labels.contains (pyStrip description_lower) then
      ("Administrative", "Organizational structure")
    else if ["definition", "definitions"].any
        (fun k => strContains description_lower k) then
      ("Administrative", "Definitions section")
    else if requirement_indicators.any
        (fun k => strContains description_lower k) then
      ("Requires Compliance",
       "Establishes regulatory requirements that must be followed")
    else if ["food", "drug", "device", "controlled substance"].any
        (fun k => strContains description_lower k) then
      ("Requires Compliance", "Regulatory requirement for compliance")
    else if 0 < allowed_count then
      ("Requires Compliance",
       "Regulatory requirement (" ++ toString allowed_count ++ " compliance indicators found)")
    else if (pyStrip description_lower).length < 20 ||
        ["general", "definitions"].contains (pyStrip description_lower) then
      ("Administrative", "Organizational structure")
    else
      ("Requires Compliance", "Regulatory provision")

/-- RegulationScraper.analyze_regulation_status, src/app.py lines 102-277, with
the LLM analyzer unavailable (its constructor failure leaves it None, so the
deterministic keyword policy is the sole source of truth, the required
baseline of the spec). The HTTP fetch and HTML main-content extraction of
lines 109-163 are an external collaborator, supplied as `fetched`: `none`
means the request raised (caught at line 161, degrading content to the empty
string), `some none` means the fetch ran without ever reassigning `content`
(non-200 status or no extractable main content), and `some (some t)` means
page text `t` was extracted (stored truncated to 8000 characters, line 152).
Inputs are Options to model Python None arguments: a None description passes
the f-string at line 166 (printing as "None") but the attribute access
`description.lower()` at line 178 raises AttributeError, returned here as
`Except.error`. -/
def analyze_regulation_status (fetched : Option (Option String))
    (description url content : Option String) :
    Except String (String × String) :=
  let content1 : Option String :=
    if !truthy content && truthy url && pyStartsWith (pyShow url) "http" then
      match fetched with
      | none => some ""
      | some none => content
      | some (some t) => some (pyTake t 8000)
    else content
  let full_text := strLower (pyStrip (pyShow description ++ " " ++ pyShow content1))
  match description with
  | none => Except.error "AttributeError: NoneType object has no attribute lower"
  | some d => Except.ok (statusFallback d full_text)

/-! Classifier lemmas and claim theorems. -/

lemma statusFallback_fst_mem (d ft : String) :
    (statusFallback d ft).1 ∈
      (["Prohibited", "Requires Compliance", "Reserved", "Administrative",
        "Unknown"] : List String) := by
  unfold statusFallback
  dsimp only
  repeat' split
  all_goals simp

lemma statusFallback_fst_ne_prohibited (d ft : String)
    (hph : ∀ p ∈ prohibited_phrases, strContains (strLower d) p = false)
    (hkw : prohibited_keywords.countP (fun k => strContains (strLower d) k) < 2) :
    (statusFallback d ft).1 ≠ "Prohibited" := by
  have h1 : (prohibited_phrases.any fun p => strContains (strLower d) p) = false := by
    rw [List.any_eq_false]
    intro x hx
    simp [hph x hx]
  have h2 : ¬ 2 ≤ prohibited_keywords.countP (fun k => strContains (strLower d) k) :=
    Nat.not_le.mpr hkw
  unfold statusFallback
  simp only [h1, Bool.false_eq_true, if_false]
  rw [if_neg h2]
  repeat' split
  all_goals simp

example :
    (statusFallback "Definitions" "definitions") =
      ("Administrative", "Definitions section") := by decide

example :
    (statusFallback "[Reserved]" "[reserved]") =
      ("Reserved", "Regulation section is reserved for future use") := by decide

example :
    (statusFallback "Persons shall not sell devices without registration and labeling"
      "persons shall not sell devices without registration and labeling").1 =
      "Prohibited" := by decide

/-- C3: whenever the description contains a strong prohibition phrase, the
classifier returns Prohibited, unconditionally — in particular regardless of
how many requirement-indicator keywords the description also contains, since
the prohibition-phrase branch (src/app.py line 223) strictly precedes the
requirement-keyword branch (line 257). -/
theorem prohibition_phrase_forces_prohibited
    (fetched : Option (Option String)) (url content : Option String)
    (d phrase : String) (hp : phrase ∈ prohibited_phrases)
    (hc : strContains (strLower d) phrase = true) :
    analyze_regulation_status fetched (some d) url content =
      Except.ok ("Prohibited",
        "Regulation explicitly prohibits activities (prohibition phrase found in description)") := by
  have hany : (prohibited_phrases.any fun p => strContains (strLower d) p) = true :=
    List.any_eq_true.mpr ⟨phrase, hp, hc⟩
  simp [analyze_regulation_status, statusFallback, hany]

/-- Witness for C3, at the spec's own example description, which also contains
the requirement keywords "registration" and "labeling". -/
theorem prohibition_phrase_forces_prohibited_witness :
    analyze_regulation_status none
      (some "Persons shall not sell devices without registration and labeling")
      none none =
      Except.ok ("Prohibited",
        "Regulation explicitly prohibits activities (prohibition phrase found in description)") :=
  prohibition_phrase_forces_prohibited none none none
    "Persons shall not sell devices without registration and labeling" "shall not"
    (by decide) (by decide)

/-- C4: when the description contains no prohibition phrase and fewer than two
prohibition keywords, the classifier never returns Prohibited, whatever the
supplied or fetched content holds — both Prohibited branches (src/app.py
lines 223-228) test only the description, and no later branch can return
Prohibited. -/
theorem no_desc_prohibition_never_prohibited
    (fetched : Option (Option String)) (url content : Option String) (d : String)
    (hph : ∀ p ∈ prohibited_phrases, strContains (strLower d) p = false)
    (hkw : prohibited_keywords.countP (fun k => strContains (strLower d) k) < 2)
    (st rsn : String)
    (hres : analyze_regulation_status fetched (some d) url content =
      Except.ok (st, rsn)) :
    st ≠ "Prohibited" := by
  simp only [analyze_regulation_status, Except.ok.injEq] at hres
  have hst := congrArg Prod.fst hres
  dsimp only at hst
  rw [← hst]
  exact statusFallback_fst_ne_prohibited d _ hph hkw

/-- Witness for C4, at the spec's content-isolation example: the description is
requirement language only, while the supplied content contains "shall not". -/
theorem no_desc_prohibition_never_prohibited_witness :
    ("Requires Compliance" : String) ≠ "Prohibited" :=
  no_desc_prohibition_never_prohibited none none
    (some "the manufacturer shall not omit the required warning")
    "Labeling requirements for medical devices"
    (by decide) (by decide)
    "Requires Compliance" "Establishes regulatory requirements that must be followed"
    (by rfl)

/-- C5 counterexample: calling the classifier with a missing (None) description
raises AttributeError at `description.lower()` (src/app.py line 178) instead
of returning a status, so the claim that it never raises for missing fields
fails at this input. -/
theorem classify_none_description_raises :
    analyze_regulation_status none none none none =
      Except.error "AttributeError: NoneType object has no attribute lower" := by
  rfl

/-- C5 (amended): for every string description and arbitrary optional url and
content (missing values behaving as absent Python arguments), the classifier
never raises and returns one of the five enumerated statuses. -/
theorem classify_string_description_total
    (fetched : Option (Option String)) (d : String) (url content : Option String) :
    ∃ st rsn,
      analyze_regulation_status fetched (some d) url content = Except.ok (st, rsn) ∧
      st ∈ (["Prohibited", "Requires Compliance", "Reserved", "Administrative",
        "Unknown"] : List String) := by
  refine ⟨_, _, rfl, ?_⟩
  exact statusFallback_fst_mem d _

/-! The FAISS-backed vector index and hybrid ranker, src/rag_service.py. -/

/-- Embedding vector (float32 in the source, modelled over ℚ). -/
abbrev Vec := List ℚ

/-- Metadata entry stored per indexed regulation, src/rag_service.py
lines 129-139. -/
structure IndexedMeta where
  id : Nat
  chapter : String
  subchapter : String
  part : String
  description : String
  status : String
  url : String
  section_range : String
  title : String
deriving DecidableEq

/-- Incoming regulation dict as read from the store; `none` models an absent
key, matching the `reg.get` defaults of src/rag_service.py lines 129-139. -/
structure RegDoc where
  id : Option Nat := none
  chapter : Option String := none
  subchapter : Option String := none
  part : Option String := none
  description : Option String := none
  status : Option String := none
  url : Option String := none
  section_range : Option String := none
  title : Option String := none
deriving DecidableEq

/-- RAGService._create_searchable_text, src/rag_service.py lines 160-175:
non-empty part/chapter/subchapter/description/section_range fields, rendered
with their prefixes and joined by " | ". -/
def create_searchable_text (reg : RegDoc) : String :=
  String.intercalate " | "
    ((if truthy reg.part then ["Part " ++ pyShow reg.part] else []) ++
     (if truthy reg.chapter then ["Chapter " ++ pyShow reg.chapter] else []) ++
     (if truthy reg.subchapter then ["Subchapter " ++ pyShow reg.subchapter] else []) ++
     (if truthy reg.description then [pyShow reg.description] else []) ++
     (if truthy reg.section_range then ["Sections " ++ pyShow reg.section_range] else []))

/-- Metadata entry built for one regulation at position `pos` of the batch,
src/rag_service.py lines 129-139; `reg.get('id', len(metadata))` defaults the
id to the entry's position. -/
def metaOf (pos : Nat) (reg : RegDoc) : IndexedMeta :=
  { id := reg.id.getD pos
    chapter := reg.chapter.getD ""
    subchapter := reg.subchapter.getD ""
    part := reg.part.getD ""
    description := pyTake (reg.description.getD "") 500
    status := reg.status.getD "Unknown"
    url := reg.url.getD ""
    section_range := reg.section_range.getD ""
    title := reg.title.getD "Title 21" }

/-- State of a RAGService instance: the FAISS index (None before creation,
otherwise the stored vectors in insertion order), the metadata list and the
indexed flag, src/rag_service.py lines 36-39. Disk persistence (_save_index)
is not modelled. -/
structure RAGState where
  index : Option (List Vec)
  regulations_metadata : List IndexedMeta
  is_indexed : Bool

/-- RAGService.index_regulations, src/rag_service.py lines 106-158, with the
embedding backend supplied as the pure function `embed` (the spec requires
embeddings to be a deterministic function of the text). Line 145 creates a
fresh FAISS index only when none exists yet; line 150 `self.index.add` then
appends the batch embeddings to whatever vectors the index already holds,
while line 151 replaces the metadata list. -/
def index_regulations (embed : String → Vec) (st : RAGState)
    (regulations : List RegDoc) : RAGState × Nat :=
  if regulations.isEmpty then (st, 0)
  else
    let embeddings := regulations.map (fun reg => embed (create_searchable_text reg))
    let metadata := regulations.enum.map (fun ir => metaOf ir.1 ir.2)
    let index0 := st.index.getD []
    ({ index := some (index0 ++ embeddings),
       regulations_metadata := metadata,
       is_indexed := true }, regulations.length)

/-- Test embedding backend for concrete witnesses. -/
def zeroEmbed : String → Vec := fun _ => [0]

/-- Fresh RAGService state (no index on disk). -/
def emptyRAG : RAGState := ⟨none, [], false⟩

/-- Sample regulation docs for concrete witnesses. -/
def docA : RegDoc := { description := some "alpha regulation" }

def docB : RegDoc := { description := some "beta regulation" }

/-- C1 counterexample: indexing [docA] and then [docB] leaves the FAISS index
holding two vectors although the second call indexed a single record, and the
metadata holds one entry — the vector of the earlier call is not discarded
(src/rag_service.py line 150 appends instead of rebuilding). -/
theorem index_regulations_counterexample :
    (((index_regulations zeroEmbed
        (index_regulations zeroEmbed emptyRAG [docA]).1 [docB]).1.index.getD
          []).length = 2) ∧
    ((index_regulations zeroEmbed
        (index_regulations zeroEmbed emptyRAG [docA]).1
          [docB]).1.regulations_metadata.length = 1) := by
  exact ⟨rfl, rfl⟩

/-- C1 (amended): for a non-empty batch, index_regulations replaces the
metadata with exactly one entry per record, marks the state indexed, returns
the record count, and appends one embedding per record to the vectors already
held; the previous vectors are discarded only when the index attribute is None
(a fresh or cleared service, the state every in-repo caller establishes via
clear_index), in which case the call is a full replacement. -/
theorem index_regulations_replaces_metadata_appends_vectors
    (embed : String → Vec) (st : RAGState) (regulations : List RegDoc)
    (hne : regulations ≠ []) :
    (index_regulations embed st regulations).2 = regulations.length ∧
    (index_regulations embed st regulations).1.regulations_metadata =
      regulations.enum.map (fun ir => metaOf ir.1 ir.2) ∧
    (index_regulations embed st regulations).1.index =
      some (st.index.getD [] ++
        regulations.map (fun reg => embed (create_searchable_text reg))) ∧
    (index_regulations embed st regulations).1.is_indexed = true ∧
    (st.index = none →
      (index_regulations embed st regulations).1.index =
        some (regulations.map (fun reg => embed (create_searchable_text reg)))) := by
  have h : regulations.isEmpty = false := by
    cases regulations with
    | nil => exact absurd rfl hne
    | cons a l => rfl
  have e : index_regulations embed st regulations =
      ({ index := some (st.index.getD [] ++
            regulations.map (fun reg => embed (create_searchable_text reg))),
         regulations_metadata := regulations.enum.map (fun ir => metaOf ir.1 ir.2),
         is_indexed := true }, regulations.length) := by
    simp only [index_regulations, h, Bool.false_eq_true, if_false]
  rw [e]
  refine ⟨rfl, rfl, rfl, rfl, fun h0 => ?_⟩
  rw [h0]
  simp

/-- Witness for C1's amended theorem on a fresh state and a one-record batch. -/
theorem index_regulations_replaces_metadata_appends_vectors_witness :
    (index_regulations zeroEmbed emptyRAG [docA]).2 = 1 ∧
    (index_regulations zeroEmbed emptyRAG [docA]).1.index = some [[0]] := by
  have h := index_regulations_replaces_metadata_appends_vectors zeroEmbed emptyRAG
    [docA] (List.cons_ne_nil _ _)
  exact ⟨h.1, h.2.2.2.2 rfl⟩

/-- Result dict produced by semantic_search, src/rag_service.py lines 217-228. -/
structure SearchResult where
  id : Nat
  chapter : String
  subchapter : String
  part : String
  description : String
  status : String
  url : String
  relevance_score : ℚ
  section_range : String
  title : String
deriving DecidableEq

/-- Result dict built from one metadata entry and its FAISS distance,
src/rag_service.py lines 214-228: similarity is 1/(1+distance). -/
def mkSearchResult (m : IndexedMeta) (distance : ℚ) : SearchResult :=
  { id := m.id
    chapter := m.chapter
    subchapter := m.subchapter
    part := m.part
    description := m.description
    status := m.status
    url := m.url
    relevance_score := 1 / (1 + distance)
    section_range := m.section_range
    title := m.title }

@[simp] lemma mkSearchResult_relevance_score (m : IndexedMeta) (d : ℚ) :
    (mkSearchResult m d).relevance_score = 1 / (1 + d) := rfl

/-- Optional filter dict of semantic_search (status and chapter keys),
src/rag_service.py lines 208-212. -/
structure FilterDict where
  status : Option String
  chapter : Option String

/-- Filter application of src/rag_service.py lines 208-212: an entry is skipped
when a filter key is present and the metadata field differs. -/
def passesFilter (filter_dict : Option FilterDict) (m : IndexedMeta) : Bool :=
  match filter_dict with
  | none => true
  | some f =>
    (match f.status with | none => true | some s => m.status == s) &&
    (match f.chapter with | none => true | some c => m.chapter == c)

/-- Result-collection loop of semantic_search, src/rag_service.py lines
201-231: walk the FAISS hits (distance, index) in order, skip out-of-range
indices and filtered entries, convert distance to similarity, and stop once
n_results entries are collected. `count` is the number already collected. -/
def collectResults (metadata : List IndexedMeta) (filter_dict : Option FilterDict)
    (n_results : Nat) (count : Nat) : List (ℚ × Nat) → List SearchResult
  | [] => []
  | (distance, idx) :: rest =>
    if h : idx < metadata.length then
      let m := metadata.get ⟨idx, h⟩
      if passesFilter filter_dict m then
        if n_results ≤ count + 1 then [mkSearchResult m distance]
        else mkSearchResult m distance ::
          collectResults metadata filter_dict n_results (count + 1) rest
      else collectResults metadata filter_dict n_results count rest
    else collectResults metadata filter_dict n_results count rest

/-- RAGService.semantic_search, src/rag_service.py lines 177-239. The FAISS
nearest-neighbor call `self.index.search` (line 198) is the external
collaborator; its output is supplied as `faiss_results`, the (distance, index)
pairs in the order FAISS returns them. The source requests
k = min(2 * n_results, len(metadata)) hits, so `faiss_results` has at most
that length; FAISS L2 distances are non-negative and ascending. Those three
facts are hypotheses of the theorems below, not baked into the definition. -/
def semantic_search (st : RAGState) (filter_dict : Option FilterDict)
    (n_results : Nat) (faiss_results : List (ℚ × Nat)) : List SearchResult :=
  if !st.is_indexed || st.index.isNone then []
  else collectResults st.regulations_metadata filter_dict n_results 0 faiss_results

lemma collectResults_length (metadata : List IndexedMeta)
    (fd : Option FilterDict) (n : Nat) :
    ∀ (l : List (ℚ × Nat)) (count : Nat), count < n →
      (collectResults metadata fd n count l).length ≤ n - count := by
  intro l
  induction l with
  | nil => intro count h; simp [collectResults]
  | cons p rest ih =>
    intro count hc
    obtain ⟨d, i⟩ := p
    simp only [collectResults]
    split
    · split
      · split
        · simp only [List.length_singleton]
          omega
        · simp only [List.length_cons]
          have := ih (count + 1) (by omega)
          omega
      · exact le_trans (ih count hc) (by omega)
    · exact le_trans (ih count hc) (by omega)

lemma collectResults_mem (metadata : List IndexedMeta)
    (fd : Option FilterDict) (n : Nat) :
    ∀ (l : List (ℚ × Nat)) (count : Nat) (r : SearchResult),
      r ∈ collectResults metadata fd n count l →
      ∃ p ∈ l, ∃ m : IndexedMeta, r = mkSearchResult m p.1 := by
  intro l
  induction l with
  | nil => intro count r hr; simp [collectResults] at hr
  | cons p rest ih =>
    intro count r hr
    obtain ⟨d, i⟩ := p
    simp only [collectResults] at hr
    by_cases h : i < metadata.length
    · rw [dif_pos h] at hr
      by_cases hpf : passesFilter fd (metadata.get ⟨i, h⟩) = true
      · rw [if_pos hpf] at hr
        by_cases hstop : n ≤ count + 1
        · rw [if_pos hstop, List.mem_singleton] at hr
          exact ⟨(d, i), List.mem_cons_self _ _, metadata.get ⟨i, h⟩, hr⟩
        · rw [if_neg hstop] at hr
          rcases List.mem_cons.mp hr with h1 | h1
          · exact ⟨(d, i), List.mem_cons_self _ _, metadata.get ⟨i, h⟩, h1⟩
          · obtain ⟨q, hq, m, hm⟩ := ih (count + 1) r h1
            exact ⟨q, List.mem_cons_of_mem _ hq, m, hm⟩
      · rw [if_neg hpf] at hr
        obtain ⟨q, hq, m, hm⟩ := ih count r hr
        exact ⟨q, List.mem_cons_of_mem _ hq, m, hm⟩
    · rw [dif_neg h] at hr
      obtain ⟨q, hq, m, hm⟩ := ih count r hr
      exact ⟨q, List.mem_cons_of_mem _ hq, m, hm⟩

lemma collectResults_sorted (metadata : List IndexedMeta)
    (fd : Option FilterDict) (n : Nat) :
    ∀ (l : List (ℚ × Nat)) (count : Nat),
      (∀ p ∈ l, (0:ℚ) ≤ p.1) →
      l.Pairwise (fun p q => p.1 ≤ q.1) →
      (collectResults metadata fd n count l).Pairwise
        (fun a b => b.relevance_score ≤ a.relevance_score) := by
  intro l
  induction l with
  | nil => intro count _ _; simp [collectResults]
  | cons p rest ih =>
    intro count h0 hp
    obtain ⟨d, i⟩ := p
    have h0d : (0:ℚ) ≤ d := h0 (d, i) (List.mem_cons_self _ _)
    have h0rest : ∀ q ∈ rest, (0:ℚ) ≤ q.1 :=
      fun q hq => h0 q (List.mem_cons_of_mem _ hq)
    have hhead : ∀ q ∈ rest, d ≤ q.1 := (List.pairwise_cons.mp hp).1
    have htail := (List.pairwise_cons.mp hp).2
    simp only [collectResults]
    split
    · split
      · split
        · simp
        · refine List.Pairwise.cons ?_ (ih (count + 1) h0rest htail)
          intro b hb
          obtain ⟨q, hq, m, hm⟩ :=
            collectResults_mem metadata fd n rest (count + 1) b hb
          rw [hm, mkSearchResult_relevance_score, mkSearchResult_relevance_score]
          have hd : d ≤ q.1 := hhead q hq
          have h1 : (0:ℚ) < 1 + d := by linarith
          exact one_div_le_one_div_of_le h1 (by linarith)
      · exact ih count h0rest htail
    · exact ih count h0rest htail

/-- C6: semantic_search returns at most n_results entries, ordered by
non-increasing similarity, every score being 1/(1+distance) for one of the
FAISS distances and hence non-negative; and whenever the index is not built
it returns the empty list instead of raising. The hypotheses are the facts
the source guarantees about the external FAISS call: it requests
k = min(2 * n_results, len(metadata)) hits (line 197), and FAISS returns its
nearest neighbors in ascending order of the non-negative squared-L2
distance. -/
theorem semantic_search_spec (st : RAGState) (filter_dict : Option FilterDict)
    (n_results : Nat) (faiss_results : List (ℚ × Nat))
    (hk : faiss_results.length ≤ min (2 * n_results) st.regulations_metadata.length)
    (hsorted : faiss_results.Pairwise (fun p q => p.1 ≤ q.1))
    (hpos : ∀ p ∈ faiss_results, (0:ℚ) ≤ p.1) :
    (semantic_search st filter_dict n_results faiss_results).length ≤ n_results ∧
    (semantic_search st filter_dict n_results faiss_results).Pairwise
      (fun a b => b.relevance_score ≤ a.relevance_score) ∧
    (∀ r ∈ semantic_search st filter_dict n_results faiss_results,
      (∃ p ∈ faiss_results, r.relevance_score = 1 / (1 + p.1)) ∧
      0 ≤ r.relevance_score) ∧
    (st.is_indexed = false →
      semantic_search st filter_dict n_results faiss_results = []) := by
  by_cases hidx : (!st.is_indexed || st.index.isNone) = true
  · have he : semantic_search st filter_dict n_results faiss_results = [] := by
      simp only [semantic_search, if_pos hidx]
    refine ⟨?_, ?_, ?_, ?_⟩ <;> simp [he]
  · have he : semantic_search st filter_dict n_results faiss_results =
        collectResults st.regulations_metadata filter_dict n_results 0
          faiss_results := by
      simp only [semantic_search, if_neg hidx]
    have hind : st.is_indexed = true := by
      by_contra hcon
      rw [Bool.not_eq_true] at hcon
      exact hidx (by simp [hcon])
    refine ⟨?_, ?_, ?_, ?_⟩
    · rw [he]
      cases n_results with
      | zero =>
        have hlen0 : faiss_results.length = 0 := by omega
        rw [List.length_eq_zero.mp hlen0]
        simp [collectResults]
      | succ m =>
        have := collectResults_length st.regulations_metadata filter_dict
          (m + 1) faiss_results 0 (Nat.succ_pos m)
        omega
    · rw [he]
      exact collectResults_sorted _ _ _ _ 0 hpos hsorted
    · rw [he]
      intro r hr
      obtain ⟨q, hq, m, hm⟩ := collectResults_mem _ _ _ _ 0 r hr
      have hq0 : (0:ℚ) ≤ q.1 := hpos q hq
      constructor
      · exact ⟨q, hq, by rw [hm, mkSearchResult_relevance_score]⟩
      · rw [hm, mkSearchResult_relevance_score]
        have h1 : (0:ℚ) < 1 + q.1 := by linarith
        exact le_of_lt (div_pos one_pos h1)
    · intro hfalse
      rw [hfalse] at hind
      exact absurd hind (by simp)

/-- Indexed one-entry state for the C6 witness. -/
def stW : RAGState := ⟨some [[0]], [metaOf 0 docA], true⟩

/-- Witness for C6 on a one-entry index and a single FAISS hit at distance 0. -/
theorem semantic_search_spec_witness :
    (semantic_search stW none 10 [((0:ℚ), 0)]).length ≤ 10 ∧
    (semantic_search stW none 10 [((0:ℚ), 0)]).Pairwise
      (fun a b => b.relevance_score ≤ a.relevance_score) ∧
    (∀ r ∈ semantic_search stW none 10 [((0:ℚ), 0)],
      (∃ p ∈ [((0:ℚ), 0)], r.relevance_score = 1 / (1 + p.1)) ∧
      0 ≤ r.relevance_score) ∧
    (stW.is_indexed = false → semantic_search stW none 10 [((0:ℚ), 0)] = []) :=
  semantic_search_spec stW none 10 [((0:ℚ), 0)] (by simp [stW])
    (by simp) (by simp)

/-! Hybrid search, src/rag_service.py lines 241-297. -/

/-- Entry of the hybrid result list: the underlying result dict plus the
optional combined_score and source keys added by hybrid_search (absent on the
early empty-keyword return path). -/
structure HybridResult where
  entry : SearchResult
  combined_score : Option ℚ
  source : Option String
deriving DecidableEq

/-- Python dict assignment combined[k] = v on an insertion-ordered association
list: replaces the value in place when the key is present, appends otherwise. -/
def dictSet (k : Nat) (v : HybridResult) :
    List (Nat × HybridResult) → List (Nat × HybridResult)
  | [] => [(k, v)]
  | (k1, v1) :: rest =>
    if k = k1 then (k, v) :: rest else (k1, v1) :: dictSet k v rest

/-- Python dict lookup combined.get(k) / `k in combined`. -/
def dictGet (k : Nat) : List (Nat × HybridResult) → Option HybridResult
  | [] => none
  | (k1, v1) :: rest => if k = k1 then some v1 else dictGet k rest

/-- Sort key x.get('combined_score', 0.0) of src/rag_service.py line 293. -/
def combinedKey (h : HybridResult) : ℚ := h.combined_score.getD 0

/-- Stable descending insertion: the new, originally-later element goes after
strictly greater keys and before equal ones, matching Python's stable
sorted(..., reverse=True). -/
def insertDesc (x : HybridResult) : List HybridResult → List HybridResult
  | [] => [x]
  | y :: ys =>
    if combinedKey y ≤ combinedKey x then x :: y :: ys else y :: insertDesc x ys

/-- Stable sort by descending combined_score, src/rag_service.py lines 291-295. -/
def sortDesc : List HybridResult → List HybridResult
  | [] => []
  | x :: xs => insertDesc x (sortDesc xs)

/-- RAGService.hybrid_search, src/rag_service.py lines 241-297. The semantic
search it performs internally (line 253, with 2 * n_results requested) is
supplied as `semantic_results`; `keyword_results` is the externally supplied
keyword-match list (both are result dicts, modelled uniformly as
SearchResult). When keyword_results is empty (or None, equally falsy) the
semantic list is returned truncated, without any scoring. -/
def hybrid_search (semantic_results keyword_results : List SearchResult)
    (n_results : Nat) (semantic_weight : ℚ) : List HybridResult :=
  if keyword_results.isEmpty then
    (semantic_results.take n_results).map (fun r => ⟨r, none, none⟩)
  else
    let afterSem := semantic_results.foldl
      (fun combined r =>
        dictSet r.id ⟨r, some (r.relevance_score * semantic_weight),
          some "semantic"⟩ combined) []
    let keyword_weight := 1 - semantic_weight
    let afterKw := keyword_results.enum.foldl
      (fun combined ir =>
        let keyword_score := keyword_weight * (1 / ((ir.1 : ℚ) + 1))
        match dictGet ir.2.id combined with
        | some e => dictSet ir.2.id
            ⟨e.entry, some (e.combined_score.getD 0 + keyword_score),
              some "both"⟩ combined
        | none => dictSet ir.2.id ⟨ir.2, some keyword_score, some "keyword"⟩ combined)
      afterSem
    (sortDesc (afterKw.map Prod.snd)).take n_results

/-- Sample semantic result with similarity 1/2 for the C2 counterexample. -/
def semA : SearchResult :=
  { id := 1, chapter := "", subchapter := "", part := "Part 1301",
    description := "alpha", status := "Requires Compliance", url := "",
    relevance_score := 1/2, section_range := "", title := "Title 21" }

/-- C2 counterexample: with an empty keyword list and semantic_weight 0.7, the
single returned entry is the semantic dict unchanged — it carries no
combined_score and its score is the raw similarity 1/2, not
1/2 * 0.7 = 7/20 as the claim states (src/rag_service.py line 257 returns
before any weighting). -/
theorem hybrid_search_counterexample :
    hybrid_search [semA] [] 10 (7/10) = [⟨semA, none, none⟩] ∧
    semA.relevance_score = 1/2 ∧ ¬ ((1 : ℚ)/2 = 1/2 * (7/10)) := by
  refine ⟨rfl, rfl, by norm_num⟩

/-- C2 (amended): with an empty keyword result list, hybrid_search returns
exactly the semantic result list truncated to the first k entries, unchanged:
every returned entry keeps its raw semantic similarity as its score and no
combined_score or semantic_weight multiplication is applied. -/
theorem hybrid_search_empty_keyword (semantic_results : List SearchResult)
    (n_results : Nat) (semantic_weight : ℚ) :
    hybrid_search semantic_results [] n_results semantic_weight =
      (semantic_results.take n_results).map (fun r => ⟨r, none, none⟩) ∧
    ∀ h ∈ hybrid_search semantic_results [] n_results semantic_weight,
      h.combined_score = none := by
  refine ⟨rfl, fun h hm => ?_⟩
  rw [show hybrid_search semantic_results [] n_results semantic_weight =
    (semantic_results.take n_results).map (fun r => ⟨r, none, none⟩) from rfl] at hm
  obtain ⟨r, _, hr⟩ := List.mem_map.mp hm
  rw [← hr]

/-! Refresh and change detection,
src/app.py refresh_regulations.update_regulations, lines 1268-1437. -/

/-- Row of the regulations table (schema at src/app.py lines 27-43;
last_updated and created_at timestamps are not modelled). Columns written by
the refresh insert are plain strings; status, url, section_range and
content_summary are nullable in pre-existing rows, and the comparison code
normalizes None via `or ''`. -/
structure StoredReg where
  id : Nat
  title : String
  chapter : String
  subchapter : String
  part : String
  section_range : Option String
  description : String
  url : Option String
  content_summary : Option String
  status : Option String
  status_reason : String
deriving DecidableEq

/-- Incoming regulation dict after the normalization of src/app.py lines
1314-1340: setdefault gives every field a string value (the scrapers produce
strings; content_summary defaults to the empty string at the classify call
site, line 1347). -/
structure InReg where
  title : String
  chapter : String
  subchapter : String
  part : String
  section_range : String
  description : String
  url : String
  content_summary : String
deriving DecidableEq

/-- Row inserted into regulation_changes (schema at src/app.py lines 52-64;
the detected_at timestamp and the notified default are not modelled). -/
structure ChangeRec where
  regulation_id : Nat
  change_type : String
  field_name : String
  old_value : String
  new_value : String
deriving DecidableEq

/-- Python `str(x or '')` normalization applied to compared field values
(src/app.py lines 1381-1382): None and the empty string both become "". -/
def pyOrEmpty : Option String → String
  | none => ""
  | some s => s

@[simp] lemma pyOrEmpty_some (s : String) : pyOrEmpty (some s) = s := rfl

@[simp] lemma pyOrEmpty_none : pyOrEmpty none = "" := rfl

/-- Lookup key of src/app.py lines 1304 and 1353: part, a pipe, and the first
100 characters of the description. -/
def lookupKey (part description : String) : String :=
  part ++ "|" ++ pyTake description 100

/-- Old-row projection for the fixed compared field set of src/app.py
line 1379. -/
def oldField (old : StoredReg) : String → Option String
  | "description" => some old.description
  | "status" => old.status
  | "url" => old.url
  | "section_range" => old.section_range
  | _ => none

/-- Incoming-record projection for the compared field set; `status` is the
classifier result assigned to the record at src/app.py line 1349, before the
comparison runs. -/
def newField (reg : InReg) (status : String) : String → Option String
  | "description" => some reg.description
  | "status" => some status
  | "url" => some reg.url
  | "section_range" => some reg.section_range
  | _ => none

/-- Compared field set `fields_to_check` of src/app.py line 1379, in source
order. -/
def fields_to_check : List String :=
  ["description", "status", "url", "section_range"]

/-- Per-record change detection of src/app.py lines 1352-1421: with `rid` the
id of the freshly inserted row, emit one updated ChangeRecord per differing
compared field when the lookup key matched an existing row, else exactly one
added ChangeRecord with new value part ++ ": " ++ first 100 description
characters. -/
def detectFor (rid : Nat) (previous : String → Option StoredReg)
    (reg : InReg) (status : String) : List ChangeRec :=
  match previous (lookupKey reg.part reg.description) with
  | some old =>
    fields_to_check.filterMap (fun f =>
      let old_val := pyOrEmpty (oldField old f)
      let new_val := pyOrEmpty (newField reg status f)
      if old_val ≠ new_val then
        some ⟨rid, "updated", f, pyTake old_val 500, pyTake new_val 500⟩
      else none)
  | none =>
    [⟨rid, "added", "regulation", "",
      reg.part ++ ": " ++ pyTake reg.description 100⟩]

/-- Whole-refresh change detection: one detectFor per incoming record in input
order, with sequentially assigned row ids (c.lastrowid of the inserts at
src/app.py line 1374). Each incoming record is paired with the status the
classifier assigned to it. -/
def detectAll (previous : String → Option StoredReg) (firstId : Nat) :
    List (InReg × String) → List ChangeRec
  | [] => []
  | (reg, status) :: rest =>
    detectFor firstId previous reg status ++
      detectAll previous (firstId + 1) rest

/-- C8: change detection is idempotent — when every incoming record's lookup
key resolves to a previous row whose stringified description, status, url and
section_range agree with the incoming values (None read as the empty string),
no ChangeRecords are emitted at all. -/
theorem change_detection_idempotent (previous : String → Option StoredReg)
    (firstId : Nat) (incoming : List (InReg × String))
    (hmatch : ∀ rs ∈ incoming, ∃ old,
      previous (lookupKey rs.1.part rs.1.description) = some old ∧
      old.description = rs.1.description ∧
      pyOrEmpty old.status = rs.2 ∧
      pyOrEmpty old.url = rs.1.url ∧
      pyOrEmpty old.section_range = rs.1.section_range) :
    detectAll previous firstId incoming = [] := by
  induction incoming generalizing firstId with
  | nil => rfl
  | cons rs rest ih =>
    obtain ⟨reg, status⟩ := rs
    obtain ⟨old, hlk, h1, h2, h3, h4⟩ :=
      hmatch (reg, status) (List.mem_cons_self _ _)
    have hFor : detectFor firstId previous reg status = [] := by
      simp [detectFor, hlk, fields_to_check, oldField, newField, h1, h2, h3, h4]
    simp only [detectAll, hFor, List.nil_append]
    exact ih (firstId + 1) (fun q hq => hmatch q (List.mem_cons_of_mem _ hq))

/-- Matching previous row for the C8 and C7 witnesses. -/
def oldW : StoredReg :=
  { id := 1, title := "Title 21", chapter := "Chapter II", subchapter := "",
    part := "Part 1301", section_range := some "1301.1",
    description := "Registration requirements", url := some "http://x",
    content_summary := none, status := some "Requires Compliance",
    status_reason := "Requires registration" }

/-- Incoming record matching oldW for the witnesses. -/
def inRegA : InReg :=
  { title := "Title 21", chapter := "Chapter II", subchapter := "",
    part := "Part 1301", section_range := "1301.1",
    description := "Registration requirements", url := "http://x",
    content_summary := "" }

/-- Witness for C8: a one-record refresh whose values all match the previous
snapshot emits no changes. -/
theorem change_detection_idempotent_witness :
    detectAll (fun _ => some oldW) 5 [(inRegA, "Requires Compliance")] = [] :=
  change_detection_idempotent (fun _ => some oldW) 5
    [(inRegA, "Requires Compliance")]
    (fun rs hrs => by
      rw [List.mem_singleton] at hrs
      subst hrs
      exact ⟨oldW, rfl, rfl, rfl, rfl, rfl⟩)

/-- C9: an incoming record whose lookup key is absent from the previous
mapping yields exactly one added ChangeRecord, whatever its other fields:
field_name "regulation", empty old value, and new value part ++ ": " ++ first
100 characters of the description (src/app.py lines 1402-1421). -/
theorem change_detection_added (rid : Nat)
    (previous : String → Option StoredReg) (reg : InReg) (status : String)
    (habs : previous (lookupKey reg.part reg.description) = none) :
    detectFor rid previous reg status =
      [⟨rid, "added", "regulation", "",
        reg.part ++ ": " ++ pyTake reg.description 100⟩] := by
  simp [detectFor, habs]

/-- Witness for C9 on an empty previous mapping. -/
theorem change_detection_added_witness :
    detectFor 3 (fun _ => none) inRegA "Requires Compliance" =
      [⟨3, "added", "regulation", "",
        "Part 1301" ++ ": " ++ pyTake "Registration requirements" 100⟩] :=
  change_detection_added 3 (fun _ => none) inRegA "Requires Compliance" rfl

/-- Committed database state: the regulations table, the append-only
regulation_changes table, and the AUTOINCREMENT counter (which DELETE does not
reset). -/
structure Database where
  regulations : List StoredReg
  regulation_changes : List ChangeRec
  nextId : Nat
deriving DecidableEq

/-- existing_regs mapping built at src/app.py lines 1299-1305: keyed by
part|description[:100]; later rows overwrite earlier ones on a key collision,
so lookup returns the last row bearing the key. -/
def buildExisting (rows : List StoredReg) : String → Option StoredReg :=
  fun k => rows.reverse.find? (fun r => lookupKey r.part r.description == k)

/-- Row inserted for one incoming record, src/app.py lines 1356-1372 (the
insert does not write content_summary, leaving it NULL). -/
def insertedRow (rid : Nat) (reg : InReg) (status status_reason : String) :
    StoredReg :=
  { id := rid, title := reg.title, chapter := reg.chapter,
    subchapter := reg.subchapter, part := reg.part,
    section_range := some reg.section_range, description := reg.description,
    url := some reg.url, content_summary := none,
    status := some status, status_reason := status_reason }

/-- Outcome of one background refresh. The Python function either raises
before the single commit at src/app.py line 1423 (any exception escaping the
per-record work, e.g. from the classifier), or commits, closes the connection
(line 1424), and then raises ProgrammingError at the stray second
conn.commit() of line 1429, which operates on the closed connection. There is
no silent-success path. -/
inductive RefreshOutcome where
  | raisedBeforeCommit (msg : String)
  | raisedAfterCommit (msg : String)
deriving DecidableEq

/-- Insert-and-detect loop of src/app.py lines 1314-1421, acting on the
uncommitted draft state: classify the record (supplied as the fallible
`classify`, line 1344), insert the new row, then emit its change records. -/
def refreshLoop (classify : InReg → Except String (String × String))
    (existing : String → Option StoredReg) :
    Database → List InReg → Except String Database
  | draft, [] => .ok draft
  | draft, reg :: rest =>
    match classify reg with
    | .error e => .error e
    | .ok (status, status_reason) =>
      let rid := draft.nextId
      refreshLoop classify existing
        { regulations := draft.regulations ++
            [insertedRow rid reg status status_reason],
          regulation_changes := draft.regulation_changes ++
            detectFor rid existing reg status,
          nextId := rid + 1 } rest

/-- refresh_regulations.update_regulations, src/app.py lines 1295-1431 (the
database part; the scraping above it only supplies `regulations`). sqlite3
autocommit is off: the snapshot read, the DELETE of line 1308 and every insert
act on one uncommitted transaction, committed solely by conn.commit() at
line 1423; an exception escaping the thread rolls the open transaction back,
leaving the committed database unchanged. Returns the committed database
after the run, together with the outcome. -/
def update_regulations (classify : InReg → Except String (String × String))
    (db : Database) (regulations : List InReg) : Database × RefreshOutcome :=
  let existing := buildExisting db.regulations
  match refreshLoop classify existing
      { regulations := [], regulation_changes := db.regulation_changes,
        nextId := db.nextId } regulations with
  | .error e => (db, .raisedBeforeCommit e)
  | .ok draft =>
    (draft,
     .raisedAfterCommit "ProgrammingError: Cannot operate on a closed database")

/-- Data carried by a stored row, for comparing the committed table against
the incoming batch (status_reason and ids come from the run itself). -/
def rowCore (r : StoredReg) :
    String × String × String × String × String × String × String :=
  (r.title, r.chapter, r.subchapter, r.part, pyOrEmpty r.section_range,
   r.description, pyOrEmpty r.url)

/-- Data carried by an incoming record, matching rowCore. -/
def regCore (reg : InReg) :
    String × String × String × String × String × String × String :=
  (reg.title, reg.chapter, reg.subchapter, reg.part, reg.section_range,
   reg.description, reg.url)

lemma refreshLoop_ok_rows (classify : InReg → Except String (String × String))
    (existing : String → Option StoredReg) :
    ∀ (regs : List InReg) (draft draft2 : Database),
      refreshLoop classify existing draft regs = .ok draft2 →
      ∃ newRows, draft2.regulations = draft.regulations ++ newRows ∧
        newRows.map rowCore = regs.map regCore := by
  intro regs
  induction regs with
  | nil =>
    intro draft draft2 h
    simp only [refreshLoop, Except.ok.injEq] at h
    exact ⟨[], by rw [← h]; simp, by simp⟩
  | cons reg rest ih =>
    intro draft draft2 h
    simp only [refreshLoop] at h
    cases hc : classify reg with
    | error e => rw [hc] at h; exact absurd h (by simp)
    | ok p =>
      obtain ⟨status, status_reason⟩ := p
      rw [hc] at h
      obtain ⟨rows, h1, h2⟩ := ih _ _ h
      refine ⟨insertedRow draft.nextId reg status status_reason :: rows, ?_, ?_⟩
      · rw [h1]
        simp
      · simp only [List.map_cons, h2, List.cons.injEq]
        exact ⟨rfl, trivial⟩

/-- C7: the delete-all-then-insert-all replacement is transactional. If the
refresh raises before the single commit, the previously committed store is
returned untouched; if it reaches the commit, the regulations table holds
exactly one row per incoming record, in order, carrying that record's data
(the post-commit ProgrammingError of line 1429 — a second conn.commit() on
the closed connection — happens after the replacement completed and does not
affect the store). In both cases the failure propagates out of the refresh as
an exception. -/
theorem update_regulations_transactional
    (classify : InReg → Except String (String × String))
    (db : Database) (regulations : List InReg) :
    (∀ msg, (update_regulations classify db regulations).2 =
        RefreshOutcome.raisedBeforeCommit msg →
      (update_regulations classify db regulations).1 = db) ∧
    (∀ msg, (update_regulations classify db regulations).2 =
        RefreshOutcome.raisedAfterCommit msg →
      (update_regulations classify db regulations).1.regulations.map rowCore =
        regulations.map regCore) := by
  cases hloop : refreshLoop classify (buildExisting db.regulations)
      { regulations := [], regulation_changes := db.regulation_changes,
        nextId := db.nextId } regulations with
  | error e =>
    constructor
    · intro msg _
      simp only [update_regulations, hloop]
    · intro msg h
      simp only [update_regulations, hloop] at h
      exact absurd h (by simp)
  | ok draft =>
    constructor
    · intro msg h
      simp only [update_regulations, hloop] at h
      exact absurd h (by simp)
    · intro msg _
      simp only [update_regulations, hloop]
      obtain ⟨rows, h1, h2⟩ := refreshLoop_ok_rows classify
        (buildExisting db.regulations) regulations _ _ hloop
      simp only [h1]
      simpa using h2

/-- Failing classifier for the C7 witness (models an exception escaping the
per-record work). -/
def failClassify : InReg → Except String (String × String) :=
  fun _ => .error "boom"

/-- Succeeding classifier for the C7 witness. -/
def okClassify : InReg → Except String (String × String) :=
  fun _ => .ok ("Requires Compliance", "Regulatory provision")

/-- Committed database for the C7 witness. -/
def dbW : Database := ⟨[oldW], [], 7⟩

/-- Witness for C7: a failing one-record refresh leaves the committed store
untouched, and a succeeding one replaces it with exactly the incoming data. -/
theorem update_regulations_transactional_witness :
    (update_regulations failClassify dbW [inRegA]).1 = dbW ∧
    (update_regulations okClassify dbW [inRegA]).1.regulations.map rowCore =
      [inRegA].map regCore :=
  ⟨(update_regulations_transactional failClassify dbW [inRegA]).1 "boom" rfl,
   (update_regulations_transactional okClassify dbW [inRegA]).2
     "ProgrammingError: Cannot operate on a closed database" rfl⟩

/-! Keyword search, RegulationScraper.search_regulations, src/app.py
lines 962-1068. -/

/-- SQLite `column LIKE '%pat%'` (the source always wraps its parameters in
plain %...% patterns, so the match is substring containment), with SQLite's
default case-insensitive matching for ASCII. `pat` here is the text between
the percent signs. -/
def likeContains (col pat : String) : Bool :=
  strContains (strLower col) (strLower pat)

/-- SQLite LIKE on a nullable column: NULL LIKE anything yields NULL, which
the WHERE clause treats as false. -/
def likeOptContains (col : Option String) (pat : String) : Bool :=
  match col with
  | none => false
  | some s => likeContains s pat

/-- SQLite `status != "Reserved"`: a NULL status compares as NULL, treated as
false by WHERE; otherwise a case-sensitive binary comparison. -/
def statusNotReserved (r : StoredReg) : Bool :=
  match r.status with
  | none => false
  | some s => s != "Reserved"

/-- Match of exactly `k` digit characters at the head of the list. -/
def takeDigits (k : Nat) (cs : List Char) : Option (List Char) :=
  let ds := cs.take k
  if (ds.length == k) && ds.all Char.isDigit then some ds else none

/-- Attempt of the greedy group \d{4,5} at one position: five digits
preferred, else four. -/
def partAt (cs : List Char) : Option (List Char) :=
  (takeDigits 5 cs).orElse (fun _ => takeDigits 4 cs)

/-- re.search scan for the part pattern (?:part\s*)?(\d{4,5}) of src/app.py
line 978: the captured group is the digit run at the leftmost matching
position (the optional "part" prefix never changes the captured digits). -/
def findPartNumber : List Char → Option (List Char)
  | [] => none
  | c :: rest => (partAt (c :: rest)).orElse (fun _ => findPartNumber rest)

/-- Attempt of \d{k}\.\d+ at one position: exactly k digits, a dot, then a
greedily captured non-empty digit run. -/
def sectionAtK (k : Nat) (cs : List Char) : Option (List Char) :=
  match takeDigits k cs with
  | none => none
  | some ds =>
    match cs.drop k with
    | '.' :: rest =>
      let frac := rest.takeWhile Char.isDigit
      if frac.isEmpty then none else some (ds ++ '.' :: frac)
    | _ => none

/-- Attempt of the group \d{4,5}\.\d+ with regex backtracking: five digits
before the dot preferred, else four. -/
def sectionAt (cs : List Char) : Option (List Char) :=
  (sectionAtK 5 cs).orElse (fun _ => sectionAtK 4 cs)

/-- re.search scan for (?:ยง|section\s*)?(\d{4,5}\.\d+) of src/app.py
line 984: the captured group at the leftmost matching position. -/
def findSectionNumber : List Char → Option (List Char)
  | [] => none
  | c :: rest => (sectionAt (c :: rest)).orElse (fun _ => findSectionNumber rest)

/-- Attempt of chapter\s*(\d+) at one position: the literal "chapter",
optional whitespace, then a captured non-empty digit run. -/
def chapterNumAt (cs : List Char) : Option (List Char) :=
  if ("chapter".toList).isPrefixOf cs then
    let rest := (cs.drop 7).dropWhile Char.isWhitespace
    let ds := rest.takeWhile Char.isDigit
    if ds.isEmpty then none else some ds
  else none

/-- re.search scan for chapter\s*(\d+) of src/app.py line 1027. -/
def findChapterNumber : List Char → Option (List Char)
  | [] => none
  | c :: rest => (chapterNumAt (c :: rest)).orElse (fun _ => findChapterNumber rest)

/-- Python int() on a digit run. -/
def digitsToNat (ds : List Char) : Nat :=
  ds.foldl (fun acc c => acc * 10 + (c.toNat - 48)) 0

/-- Roman numeral table of src/app.py line 1031. -/
def roman_numerals : List String :=
  ["", "I", "II", "III", "IV", "V", "VI", "VII", "VIII", "IX", "X"]

/-- Chapter LIKE pattern contents built at src/app.py lines 1027-1037 when the
query names a chapter number between 1 and 10 (each is wrapped in %...% by the
source). -/
def chapter_patterns (query_lower : String) : List String :=
  match findChapterNumber query_lower.toList with
  | none => []
  | some ds =>
    let chapter_num := digitsToNat ds
    if 1 ≤ chapter_num ∧ chapter_num ≤ 10 then
      let roman := roman_numerals.getD chapter_num ""
      ["Chapter " ++ roman, "chapter " ++ roman,
       "Chapter " ++ toString chapter_num, "chapter " ++ toString chapter_num]
    else []

/-- WHERE clause of the exact-section branch, src/app.py lines 994-1001. -/
def sectionWhere (section_number query : String) (r : StoredReg) : Bool :=
  likeOptContains r.section_range section_number ||
  likeOptContains r.section_range query

/-- WHERE clause of the part-number branch, src/app.py lines 1004-1018. -/
def partWhere (part_number : String) (r : StoredReg) : Bool :=
  likeContains r.part ("Part " ++ part_number) ||
  likeContains r.part part_number ||
  likeOptContains r.section_range part_number

/-- WHERE clause of the general keyword branch, src/app.py lines 1040-1061;
`extra` holds chapter_patterns[1:] (the code adds only those as extra ORs —
the skipped first pattern differs from the second only by case, which LIKE
ignores anyway). -/
def generalWhere (query : String) (extra : List String) (r : StoredReg) : Bool :=
  likeContains r.description query ||
  likeContains r.part query ||
  likeContains r.subchapter query ||
  likeOptContains r.section_range query ||
  likeOptContains r.content_summary query ||
  likeContains r.chapter query ||
  extra.any (fun p => likeContains r.chapter p)

/-- Boolean order on strings (SQLite BINARY collation, here code points). -/
def strLe (a b : String) : Bool := decide (a ≤ b)

/-- Order on a nullable column: SQLite sorts NULLs first ascending. -/
def optLeStr : Option String → Option String → Bool
  | none, _ => true
  | some _, none => false
  | some a, some b => strLe a b

/-- ORDER BY chapter, subchapter, part, section_range (section branch,
src/app.py line 1000). -/
def sectionOrderLe (a b : StoredReg) : Bool :=
  if a.chapter ≠ b.chapter then strLe a.chapter b.chapter
  else if a.subchapter ≠ b.subchapter then strLe a.subchapter b.subchapter
  else if a.part ≠ b.part then strLe a.part b.part
  else optLeStr a.section_range b.section_range

/-- ORDER BY CASE WHEN part LIKE '%Part n%' THEN 1 ELSE 2 END, chapter,
subchapter, part (part branch, src/app.py lines 1010-1012). -/
def partOrderLe (part_number : String) (a b : StoredReg) : Bool :=
  let ka : Nat := if likeContains a.part ("Part " ++ part_number) then 1 else 2
  let kb : Nat := if likeContains b.part ("Part " ++ part_number) then 1 else 2
  if ka ≠ kb then decide (ka ≤ kb)
  else if a.chapter ≠ b.chapter then strLe a.chapter b.chapter
  else if a.subchapter ≠ b.subchapter then strLe a.subchapter b.subchapter
  else strLe a.part b.part

/-- ORDER BY chapter, subchapter, part (general branch, src/app.py
line 1054). -/
def generalOrderLe (a b : StoredReg) : Bool :=
  if a.chapter ≠ b.chapter then strLe a.chapter b.chapter
  else if a.subchapter ≠ b.subchapter then strLe a.subchapter b.subchapter
  else strLe a.part b.part

/-- Ascending insertion keeping the inserted (originally earlier) element
before later elements that compare equal. -/
def insertLe (le : StoredReg → StoredReg → Bool) (x : StoredReg) :
    List StoredReg → List StoredReg
  | [] => [x]
  | y :: ys => if le x y then x :: y :: ys else y :: insertLe le x ys

/-- Sort modelling the SQL ORDER BY (which fixes only the key order; ties are
unspecified in SQLite, so any key-consistent order is a faithful model). -/
def sortBy (le : StoredReg → StoredReg → Bool) : List StoredReg → List StoredReg
  | [] => []
  | x :: xs => insertLe le x (sortBy le xs)

/-- RegulationScraper.search_regulations, src/app.py lines 962-1068, over the
regulations table `db`: normalize the query, decide the Reserved exclusion,
detect the section/part/general branch from the query's digit patterns, and
run the branch's SELECT. -/
def search_regulations (db : List StoredReg) (query : String) :
    List StoredReg :=
  let query_lower := pyStrip (strLower query)
  let exclude_reserved := !strContains query_lower "reserved"
  match findSectionNumber query_lower.toList with
  | some sn =>
    sortBy sectionOrderLe (db.filter (fun r =>
      sectionWhere (String.mk sn) query r &&
      (!exclude_reserved || statusNotReserved r)))
  | none =>
    match findPartNumber query_lower.toList with
    | some pn =>
      sortBy (partOrderLe (String.mk pn)) (db.filter (fun r =>
        partWhere (String.mk pn) r &&
        (!exclude_reserved || statusNotReserved r)))
    | none =>
      sortBy generalOrderLe (db.filter (fun r =>
        generalWhere query ((chapter_patterns query_lower).drop 1) r &&
        (!exclude_reserved || statusNotReserved r)))

lemma hasSubstr_nil_left (t : List Char) : hasSubstr [] t = true := by
  cases t with
  | nil => rfl
  | cons c r => simp [hasSubstr, List.isPrefixOf]

lemma hasSubstr_cons (n : List Char) (c : Char) (l : List Char)
    (h : hasSubstr n l = true) : hasSubstr n (c :: l) = true := by
  simp only [hasSubstr, h, Bool.or_true]

lemma hasSubstr_dropWhile (p : Char → Bool) (n : List Char) :
    ∀ l, hasSubstr n (l.dropWhile p) = true → hasSubstr n l = true := by
  intro l
  induction l with
  | nil => intro h; simpa using h
  | cons c t ih =>
    intro h
    rw [List.dropWhile_cons] at h
    by_cases hc : p c = true
    · rw [if_pos hc] at h
      exact hasSubstr_cons n c t (ih h)
    · rw [if_neg hc] at h
      exact h

lemma isPrefixOf_append (n l t : List Char) (h : n.isPrefixOf l = true) :
    n.isPrefixOf (l ++ t) = true := by
  rw [List.isPrefixOf_iff_prefix] at h ⊢
  exact h.trans (List.prefix_append l t)

lemma hasSubstr_append_left (n l t : List Char)
    (h : hasSubstr n l = true) : hasSubstr n (l ++ t) = true := by
  induction l with
  | nil =>
    have hn : n = [] := by
      cases n with
      | nil => rfl
      | cons a b => simp [hasSubstr] at h
    rw [hn]
    exact hasSubstr_nil_left t
  | cons c l ih =>
    simp only [hasSubstr, Bool.or_eq_true] at h
    rcases h with h1 | h1
    · show (n.isPrefixOf (c :: (l ++ t)) || hasSubstr n (l ++ t)) = true
      rw [Bool.or_eq_true]
      exact Or.inl (isPrefixOf_append n (c :: l) t h1)
    · exact hasSubstr_cons n c (l ++ t) (ih h1)

lemma hasSubstr_pyStrip (s : String) (n : List Char)
    (h : hasSubstr n (pyStrip s).toList = true) :
    hasSubstr n s.toList = true := by
  have hts : (pyStrip s).toList =
      ((s.toList.dropWhile Char.isWhitespace).reverse.dropWhile
        Char.isWhitespace).reverse := rfl
  rw [hts] at h
  apply hasSubstr_dropWhile Char.isWhitespace n s.toList
  have tadw : (s.toList.dropWhile Char.isWhitespace).reverse.takeWhile
        Char.isWhitespace ++
      (s.toList.dropWhile Char.isWhitespace).reverse.dropWhile
        Char.isWhitespace =
      (s.toList.dropWhile Char.isWhitespace).reverse :=
    List.takeWhile_append_dropWhile _ _
  have hsplit : s.toList.dropWhile Char.isWhitespace =
      ((s.toList.dropWhile Char.isWhitespace).reverse.dropWhile
        Char.isWhitespace).reverse ++
      ((s.toList.dropWhile Char.isWhitespace).reverse.takeWhile
        Char.isWhitespace).reverse := by
    calc s.toList.dropWhile Char.isWhitespace
        = (s.toList.dropWhile Char.isWhitespace).reverse.reverse := by
          rw [List.reverse_reverse]
      _ = ((s.toList.dropWhile Char.isWhitespace).reverse.takeWhile
              Char.isWhitespace ++
            (s.toList.dropWhile Char.isWhitespace).reverse.dropWhile
              Char.isWhitespace).reverse := by rw [tadw]
      _ = _ := by rw [List.reverse_append]
  rw [hsplit]
  exact hasSubstr_append_left _ _ _ h

lemma strContains_pyStrip_false (s n : String)
    (h : strContains s n = false) : strContains (pyStrip s) n = false := by
  cases hv : strContains (pyStrip s) n with
  | false => rfl
  | true =>
    exfalso
    have hmono : hasSubstr n.toList s.toList = true :=
      hasSubstr_pyStrip s n.toList hv
    rw [strContains] at h
    rw [hmono] at h
    cases h

lemma mem_insertLe (le : StoredReg → StoredReg → Bool) (x a : StoredReg) :
    ∀ l, a ∈ insertLe le x l → a = x ∨ a ∈ l := by
  intro l
  induction l with
  | nil =>
    intro h
    rw [insertLe, List.mem_singleton] at h
    exact Or.inl h
  | cons y ys ih =>
    intro h
    rw [insertLe] at h
    by_cases hc : le x y = true
    · rw [if_pos hc] at h
      rcases List.mem_cons.mp h with h1 | h1
      · exact Or.inl h1
      · exact Or.inr h1
    · rw [if_neg hc] at h
      rcases List.mem_cons.mp h with h1 | h1
      · exact Or.inr (h1 ▸ List.mem_cons_self y ys)
      · rcases ih h1 with h2 | h2
        · exact Or.inl h2
        · exact Or.inr (List.mem_cons_of_mem y h2)

lemma mem_sortBy (le : StoredReg → StoredReg → Bool) (a : StoredReg) :
    ∀ l, a ∈ sortBy le l → a ∈ l := by
  intro l
  induction l with
  | nil => intro h; rw [sortBy] at h; simp at h
  | cons x xs ih =>
    intro h
    rw [sortBy] at h
    rcases mem_insertLe le x a _ h with h1 | h1
    · exact h1 ▸ List.mem_cons_self x xs
    · exact List.mem_cons_of_mem x (ih h1)

lemma statusNotReserved_spec (r : StoredReg)
    (h : statusNotReserved r = true) : r.status ≠ some "Reserved" := by
  unfold statusNotReserved at h
  cases hs : r.status with
  | none => rw [hs] at h; simp at h
  | some s =>
    rw [hs] at h
    simp only [bne_iff_ne, ne_eq] at h
    intro heq
    exact h (Option.some.inj heq)

/-- C10: keyword search silently excludes Reserved entries unless asked for
them: for every database state and every query whose lowercase form does not
contain "reserved", every row returned by search_regulations has a status
different from "Reserved" (each of the three SQL branches appends
AND status != "Reserved" when exclude_reserved holds, src/app.py lines
989-1053). -/
theorem search_excludes_reserved (db : List StoredReg) (query : String)
    (hq : strContains (strLower query) "reserved" = false) :
    ∀ r ∈ search_regulations db query, r.status ≠ some "Reserved" := by
  intro r hr
  have hq2 : strContains (pyStrip (strLower query)) "reserved" = false :=
    strContains_pyStrip_false _ _ hq
  simp only [search_regulations] at hr
  cases hsec : findSectionNumber (pyStrip (strLower query)).toList with
  | some sn =>
    rw [hsec] at hr
    have hmem := mem_sortBy _ _ _ hr
    rw [List.mem_filter] at hmem
    have hpred := hmem.2
    rw [Bool.and_eq_true] at hpred
    have hres := hpred.2
    rw [hq2] at hres
    simp at hres
    exact statusNotReserved_spec r hres
  | none =>
    rw [hsec] at hr
    cases hpart : findPartNumber (pyStrip (strLower query)).toList with
    | some pn =>
      rw [hpart] at hr
      have hmem := mem_sortBy _ _ _ hr
      rw [List.mem_filter] at hmem
      have hpred := hmem.2
      rw [Bool.and_eq_true] at hpred
      have hres := hpred.2
      rw [hq2] at hres
      simp at hres
      exact statusNotReserved_spec r hres
    | none =>
      rw [hpart] at hr
      have hmem := mem_sortBy _ _ _ hr
      rw [List.mem_filter] at hmem
      have hpred := hmem.2
      rw [Bool.and_eq_true] at hpred
      have hres := hpred.2
      rw [hq2] at hres
      simp at hres
      exact statusNotReserved_spec r hres

/-- Witness for C10: searching "registration" over a one-row table returns
that row, and its status is not Reserved. -/
theorem search_excludes_reserved_witness :
    oldW.status ≠ some "Reserved" :=
  search_excludes_reserved [oldW] "registration" (by decide) oldW (by decide)

end Regulations
